import Mathlib

/-!
Verification of the tracing_shiva coordinate-geometry tools.

A shallow embedding, over the rational numbers, of the coordinate pipeline
shared by the Python tools under `lib/src/tools`: the SVG path command
tokenizer (the regex scan of `parse_svg_path` in `fix_json_alignment.py` /
`visualize_points.py`), the curve-sampling bounds computation
(`get_svg_bounds`), the fit-and-center transform
(`calculate_flutter_transform`) with its forward and reverse point maps, the
naive number-pairing bounds of `fix_dotted_path_alignment.py`, and the
vertical-flip path transformer of `extract_telugu.py`.

Python floats are modelled by `ℚ` (every concrete value exercised below is a
small dyadic rational, exactly representable as a double); a Python operation
that can raise (`float()` on a bad token, a division by zero, `min` of an
empty list) is modelled as `Option`/`Except`.
-/

namespace TracingShiva

/-- An axis-aligned bounding box, as the `dict` with keys
`left`/`top`/`width`/`height` built by `get_svg_bounds` and
`parse_svg_path` (fix_dotted_path_alignment.py). -/
structure Bounds where
  left : ℚ
  top : ℚ
  width : ℚ
  height : ℚ
  deriving DecidableEq, Repr

/-- The fit transform `dict` with keys `scale`/`translate_x`/`translate_y`
returned by `calculate_flutter_transform` (fix_json_alignment.py,
fix_dotted_path_alignment.py) and `apply_flutter_transformation`
(visualize_points.py). -/
structure Transform where
  scale : ℚ
  tx : ℚ
  ty : ℚ
  deriving DecidableEq, Repr

/-- The Python exceptions the embedded fragments can raise: `ZeroDivisionError`
from `/` and `ValueError` from `min`/`max` on an empty list. -/
inductive PyError where
  | zeroDivision
  | valueError
  deriving DecidableEq, Repr

/-- `calculate_flutter_transform(svg_bounds, view_size)` of
fix_json_alignment.py lines 142-163 (duplicated verbatim in
fix_dotted_path_alignment.py lines 40-58 and as
`apply_flutter_transformation` in visualize_points.py): `scale_x` and
`scale_y` are the two divisions, which raise `ZeroDivisionError` in Python
when the width or height is zero; otherwise the uniform scale is their
minimum and the translations center the scaled box. -/
def calculate_flutter_transform (b : Bounds) (view_size : ℚ) :
    Except PyError Transform :=
  if b.width = 0 ∨ b.height = 0 then .error .zeroDivision
  else
    let scale_x := view_size / b.width
    let scale_y := view_size / b.height
    let scale := min scale_x scale_y
    .ok { scale := scale
          tx := (view_size - b.width * scale) / 2 - b.left * scale
          ty := (view_size - b.height * scale) / 2 - b.top * scale }

/-- `transform_point_to_flutter_space(x, y, transform)` of
visualize_points.py lines 228-233: the forward affine map. -/
def transform_point_to_flutter_space (x y : ℚ) (t : Transform) : ℚ × ℚ :=
  (x * t.scale + t.tx, y * t.scale + t.ty)

/-- `transform_point_from_flutter_space(flutter_x, flutter_y, transform)` of
visualize_points.py lines 235-239: the reverse affine map; the two divisions
raise `ZeroDivisionError` when the scale is zero. -/
def transform_point_from_flutter_space (fx fy : ℚ) (t : Transform) :
    Except PyError (ℚ × ℚ) :=
  if t.scale = 0 then .error .zeroDivision
  else .ok ((fx - t.tx) / t.scale, (fy - t.ty) / t.scale)

/-- `reverse_transform_point(normalized_x, normalized_y, transform, view_size)`
of fix_dotted_path_alignment.py lines 60-75: scale the normalized point up by
the view size, then apply the reverse affine map. -/
def reverse_transform_point (nx ny : ℚ) (t : Transform) (view_size : ℚ) :
    Except PyError (ℚ × ℚ) :=
  transform_point_from_flutter_space (nx * view_size) (ny * view_size) t

/-- `svg_to_flutter_normalized(svg_x, svg_y, transform, view_size)` of
fix_json_alignment.py lines 165-180: forward affine map, divide by the view
size, then clamp each coordinate into [0, 1] (`max(0.0, min(1.0, ...))`). -/
def svg_to_flutter_normalized (x y : ℚ) (t : Transform) (view_size : ℚ) :
    Except PyError (ℚ × ℚ) :=
  if view_size = 0 then .error .zeroDivision
  else
    let fx := x * t.scale + t.tx
    let fy := y * t.scale + t.ty
    .ok (max 0 (min 1 (fx / view_size)), max 0 (min 1 (fy / view_size)))

/-! ## The SVG-path command tokenizer

The regex scan of parse_svg_path in fix_json_alignment.py, visualize_points.py
and transform_path in extract_telugu.py is the findall of the pattern
  ([MmLlHhVvCcSsQqTtAaZz]) \s* ([-\d.eE, ]+)?
realised here as a one-pass state machine over the character list (the state
records the pending command letter and whether the scan is still inside the
leading whitespace run, which the regex's greedy quantifiers consume before
the operand class, whose own alphabet re-admits the space). -/

/-- Character class of the regex escape backslash-s, as Python re interprets
it on ASCII input. -/
def isPySpace (c : Char) : Bool :=
  c = ' ' || c = '\t' || c = '\n' || c = '\r' || c = '\x0b' || c = '\x0c'

/-- Membership in the command-letter class MmLlHhVvCcSsQqTtAaZz. -/
def isCmdLetter (c : Char) : Bool :=
  c = 'M' || c = 'm' || c = 'L' || c = 'l' || c = 'H' || c = 'h' ||
  c = 'V' || c = 'v' || c = 'C' || c = 'c' || c = 'S' || c = 's' ||
  c = 'Q' || c = 'q' || c = 'T' || c = 't' || c = 'A' || c = 'a' ||
  c = 'Z' || c = 'z'

/-- Membership in the operand class [-\d.eE, ]. -/
def isOperandChar (c : Char) : Bool :=
  c = '-' || c.isDigit || c = '.' || c = 'e' || c = 'E' || c = ',' || c = ' '

/-- Scanner state-machine step for the command regex: `st` is `none` between
matches, or `some (letter, inWhitespaceRun, reversedOperandChars)` while the
groups of a match are being consumed. -/
def fcGo (st : Option (Char × Bool × List Char)) : List Char → List (Char × List Char)
  | [] =>
    match st with
    | none => []
    | some (c, _, ops) => [(c, ops.reverse)]
  | a :: rest =>
    match st with
    | none =>
      if isCmdLetter a then fcGo (some (a, true, [])) rest
      else fcGo none rest
    | some (c, true, _) =>
      if isPySpace a then fcGo (some (c, true, [])) rest
      else if isOperandChar a then fcGo (some (c, false, [a])) rest
      else if isCmdLetter a then (c, []) :: fcGo (some (a, true, [])) rest
      else (c, []) :: fcGo none rest
    | some (c, false, ops) =>
      if isOperandChar a then fcGo (some (c, false, a :: ops)) rest
      else if isCmdLetter a then (c, ops.reverse) :: fcGo (some (a, true, [])) rest
      else (c, ops.reverse) :: fcGo none rest

/-- re.findall of the command pattern: each match is the command letter and
its (possibly empty) raw operand substring. -/
def findCommands (s : List Char) : List (Char × List Char) :=
  fcGo none s

/-! ## Numeric tokens

Python float() on the whitespace-free tokens these tools produce: an optional
sign, then digits and/or a decimal point, then an optional exponent. The
special forms float() also accepts (inf, nan, underscore separators) cannot
be produced by the operand alphabets above and are not represented. -/

/-- Longest digit prefix and the remainder. -/
def takeDigits : List Char → List Char × List Char
  | [] => ([], [])
  | c :: rest =>
    if c.isDigit then
      let p := takeDigits rest
      (c :: p.1, p.2)
    else ([], c :: rest)

/-- Value of a decimal digit character. -/
def digitVal (c : Char) : ℕ := c.toNat - 48

/-- Value of a string of decimal digits. -/
def digitsVal (l : List Char) : ℕ := l.foldl (fun a c => 10 * a + digitVal c) 0

/-- Exponent suffix of a float literal: empty, or e/E with an optional sign
and at least one digit, consuming the whole remainder. -/
def expPart (m : ℚ) (r : List Char) : Option ℚ :=
  if r = [] then some m
  else if r.head? = some 'e' ∨ r.head? = some 'E' then
    let r1 := r.tail
    let sgn : ℤ := if r1.head? = some '-' then -1 else 1
    let r2 := if r1.head? = some '-' ∨ r1.head? = some '+' then r1.tail else r1
    let p := takeDigits r2
    if p.1 = [] ∨ p.2 ≠ [] then none
    else some (m * (10 : ℚ) ^ (sgn * (digitsVal p.1 : ℤ)))
  else none

/-- Python float(token) for a whitespace-free token, none on ValueError. -/
def pyFloat (t : List Char) : Option ℚ :=
  let sgn : ℚ := if t.head? = some '-' then -1 else 1
  let t1 := if t.head? = some '-' ∨ t.head? = some '+' then t.tail else t
  let ip := takeDigits t1
  if ip.2.head? = some '.' then
    let fp := takeDigits ip.2.tail
    if ip.1 = [] ∧ fp.1 = [] then none
    else expPart (sgn * ((digitsVal ip.1 : ℚ) + (digitsVal fp.1 : ℚ) / 10 ^ fp.1.length)) fp.2
  else if ip.1 = [] then none
  else expPart (sgn * (digitsVal ip.1 : ℚ)) ip.2

/-- Python str.split() with no argument: maximal non-whitespace runs. The
accumulator holds the reversed characters of the word being read. -/
def pwGo (acc : List Char) : List Char → List (List Char)
  | [] => if acc = [] then [] else [acc.reverse]
  | a :: rest =>
    if isPySpace a then
      if acc = [] then pwGo [] rest else acc.reverse :: pwGo [] rest
    else pwGo (a :: acc) rest

/-- Python str.split() with no argument. -/
def pyWords (l : List Char) : List (List Char) := pwGo [] l

/-- The comma-to-space substitution coords_str.replace(yielding a uniform
separator) applied before splitting. -/
def commaToSpace (c : Char) : Char := if c = ',' then ' ' else c

/-- The operand-list parse shared by parse_svg_path (fix_json_alignment.py
lines 38-45, visualize_points.py lines 57-64) and transform_path
(extract_telugu.py lines 131-138): replace commas by spaces, split, parse
each piece with float(), and drop the pieces that raise ValueError. -/
def parseNums (ops : List Char) : List ℚ :=
  (pyWords (ops.map commaToSpace)).filterMap pyFloat

/-! ## The two command-level parsers -/

/-- The per-match body of parse_svg_path in fix_json_alignment.py lines
29-48: uppercase the letter; Z is kept with no operands; a command whose
operand substring is empty or all whitespace is dropped, as is one whose
operand list parses to no numbers. -/
def fjaCmd (p : Char × List Char) : Option (Char × List ℚ) :=
  if p.1.toUpper = 'Z' then some ('Z', [])
  else if p.2.all isPySpace then none
  else
    let nums := parseNums p.2
    if nums = [] then none else some (p.1.toUpper, nums)

/-- parse_svg_path of fix_json_alignment.py lines 22-50. -/
def parse_svg_path_fja (s : List Char) : List (Char × List ℚ) :=
  (findCommands s).filterMap fjaCmd

/-- parse_svg_path of visualize_points.py lines 42-68: uppercase the letter;
a Z command or an empty operand substring yields a zero-operand command, and
every other match is kept with whatever numbers its operands parse to (also
when that list is empty). -/
def parse_svg_path_vis (s : List Char) : List (Char × List ℚ) :=
  (findCommands s).map fun p =>
    if p.2 = [] ∨ p.1.toUpper = 'Z' then (p.1.toUpper, [])
    else (p.1.toUpper, parseNums p.2)

/-! ## Stroke-point decoding -/

/-- Python str.split on a comma separator, keeping empty pieces. -/
def splitComma : List Char → List (List Char)
  | [] => [[]]
  | c :: rest =>
    if c = ',' then [] :: splitComma rest
    else
      match splitComma rest with
      | w :: ws => (c :: w) :: ws
      | [] => [[c]]

/-- Python str.strip(): drop leading and trailing whitespace. -/
def pyStrip (l : List Char) : List Char :=
  ((l.dropWhile isPySpace).reverse.dropWhile isPySpace).reverse

/-- parse_point of visualize_points.py lines 33-40 (same in
generate_dotted_path.py): split on the comma into exactly two pieces, strip
and float() each; any failure returns the None pair. -/
def parse_point (s : List Char) : Option (ℚ × ℚ) :=
  match splitComma s with
  | [a, b] =>
    match pyFloat (pyStrip a), pyFloat (pyStrip b) with
    | some x, some y => some (x, y)
    | _, _ => none
  | _ => none

/-! ## Curve sampling and bounds (get_svg_bounds, fix_json_alignment.py 52-140) -/

/-- sample_quadratic_bezier of fix_json_alignment.py lines 64-72: the
num_samples+1 Bernstein evaluations at t = i/num_samples. -/
def sample_quadratic_bezier (x0 y0 x1 y1 x2 y2 : ℚ) (num_samples : ℕ) : List (ℚ × ℚ) :=
  (List.range (num_samples + 1)).map fun (i : ℕ) =>
    let t : ℚ := (i : ℚ) / (num_samples : ℚ)
    ((1 - t) ^ 2 * x0 + 2 * (1 - t) * t * x1 + t ^ 2 * x2,
     (1 - t) ^ 2 * y0 + 2 * (1 - t) * t * y1 + t ^ 2 * y2)

/-- sample_cubic_bezier of fix_json_alignment.py lines 74-82. -/
def sample_cubic_bezier (x0 y0 x1 y1 x2 y2 x3 y3 : ℚ) (num_samples : ℕ) : List (ℚ × ℚ) :=
  (List.range (num_samples + 1)).map fun (i : ℕ) =>
    let t : ℚ := (i : ℚ) / (num_samples : ℚ)
    ((1 - t) ^ 3 * x0 + 3 * (1 - t) ^ 2 * t * x1 + 3 * (1 - t) * t ^ 2 * x2 + t ^ 3 * x3,
     (1 - t) ^ 3 * y0 + 3 * (1 - t) ^ 2 * t * y1 + 3 * (1 - t) * t ^ 2 * y2 + t ^ 3 * y3)

/-- The points one parsed command appends to all_x/all_y in the if/elif
chain of get_svg_bounds, given the current point: the new current point for
an M, L, H or V with enough operands; every sampled curve point for Q and C;
nothing for Z, for the unhandled letters S, T and A, and for a command with
too few operands. -/
def cmdPoints (cx cy : ℚ) (c : Char × List ℚ) : List (ℚ × ℚ) :=
  if c.1 = 'M' ∨ c.1 = 'L' then
    match c.2 with
    | x :: y :: _ => [(x, y)]
    | _ => []
  else if c.1 = 'Q' then
    match c.2 with
    | x1 :: y1 :: x2 :: y2 :: _ => sample_quadratic_bezier cx cy x1 y1 x2 y2 20
    | _ => []
  else if c.1 = 'C' then
    match c.2 with
    | x1 :: y1 :: x2 :: y2 :: x3 :: y3 :: _ => sample_cubic_bezier cx cy x1 y1 x2 y2 x3 y3 20
    | _ => []
  else if c.1 = 'H' then
    match c.2 with
    | x :: _ => [(x, cy)]
    | _ => []
  else if c.1 = 'V' then
    match c.2 with
    | y :: _ => [(cx, y)]
    | _ => []
  else []

/-- The current point after one parsed command of get_svg_bounds. -/
def cmdNext (cx cy : ℚ) (c : Char × List ℚ) : ℚ × ℚ :=
  if c.1 = 'M' ∨ c.1 = 'L' then
    match c.2 with
    | x :: y :: _ => (x, y)
    | _ => (cx, cy)
  else if c.1 = 'Q' then
    match c.2 with
    | _ :: _ :: x2 :: y2 :: _ => (x2, y2)
    | _ => (cx, cy)
  else if c.1 = 'C' then
    match c.2 with
    | _ :: _ :: _ :: _ :: x3 :: y3 :: _ => (x3, y3)
    | _ => (cx, cy)
  else if c.1 = 'H' then
    match c.2 with
    | x :: _ => (x, cy)
    | _ => (cx, cy)
  else if c.1 = 'V' then
    match c.2 with
    | y :: _ => (cx, y)
    | _ => (cx, cy)
  else (cx, cy)

/-- Whether a parsed command appends at least one point in get_svg_bounds
(same branch conditions as cmdPoints; independent of the current point). -/
def contributes (c : Char × List ℚ) : Bool :=
  if c.1 = 'M' ∨ c.1 = 'L' then decide (2 ≤ c.2.length)
  else if c.1 = 'Q' then decide (4 ≤ c.2.length)
  else if c.1 = 'C' then decide (6 ≤ c.2.length)
  else if c.1 = 'H' then decide (1 ≤ c.2.length)
  else if c.1 = 'V' then decide (1 ≤ c.2.length)
  else false

/-- The all_x/all_y accumulation loop of get_svg_bounds, as the ordered list
of appended (x, y) points, threading the current point from (cx, cy). -/
def accumPoints (cx cy : ℚ) : List (Char × List ℚ) → List (ℚ × ℚ)
  | [] => []
  | c :: cs => cmdPoints cx cy c ++ accumPoints (cmdNext cx cy c).1 (cmdNext cx cy c).2 cs

/-- Python min over a nonempty list given as head and tail. -/
def listMin (x : ℚ) (xs : List ℚ) : ℚ := xs.foldl min x

/-- Python max over a nonempty list given as head and tail. -/
def listMax (x : ℚ) (xs : List ℚ) : ℚ := xs.foldl max x

/-- The bounds dict built by get_svg_bounds from the accumulated points,
None when no point was accumulated. -/
def boundsOfPoints : List (ℚ × ℚ) → Option Bounds
  | [] => none
  | p :: ps =>
    some { left := listMin p.1 (ps.map Prod.fst)
           top := listMin p.2 (ps.map Prod.snd)
           width := listMax p.1 (ps.map Prod.fst) - listMin p.1 (ps.map Prod.fst)
           height := listMax p.2 (ps.map Prod.snd) - listMin p.2 (ps.map Prod.snd) }

/-- get_svg_bounds of fix_json_alignment.py lines 52-140. -/
def get_svg_bounds (s : List Char) : Option Bounds :=
  boundsOfPoints (accumPoints 0 0 (parse_svg_path_fja s))

/-! ## The naive bounds of parse_svg_path (fix_dotted_path_alignment.py 21-38)

That function scans the whole path string with the number regex
  [-]?\d+\.?\d*
and pairs the resulting floats positionally: even-indexed numbers become X,
odd-indexed numbers become Y, regardless of the commands they belong to.
min/max of an empty coordinate list raises ValueError. -/

/-- State of the number-regex scan: between matches, after a bare minus, or
inside a number (reversed characters so far, and whether the optional dot
has been consumed). -/
inductive NTState where
  | out
  | minus
  | inNum (acc : List Char) (seenDot : Bool)

/-- One-pass scanner equivalent to re.findall of the number pattern
(maximal munch, resuming after each match). -/
def ntGo (st : NTState) : List Char → List (List Char)
  | [] =>
    match st with
    | .out => []
    | .minus => []
    | .inNum acc _ => [acc.reverse]
  | a :: rest =>
    match st with
    | .out =>
      if a.isDigit then ntGo (.inNum [a] false) rest
      else if a = '-' then ntGo .minus rest
      else ntGo .out rest
    | .minus =>
      if a.isDigit then ntGo (.inNum [a, '-'] false) rest
      else if a = '-' then ntGo .minus rest
      else ntGo .out rest
    | .inNum acc false =>
      if a.isDigit then ntGo (.inNum (a :: acc) false) rest
      else if a = '.' then ntGo (.inNum ('.' :: acc) true) rest
      else if a = '-' then acc.reverse :: ntGo .minus rest
      else acc.reverse :: ntGo .out rest
    | .inNum acc true =>
      if a.isDigit then ntGo (.inNum (a :: acc) true) rest
      else if a = '-' then acc.reverse :: ntGo .minus rest
      else acc.reverse :: ntGo .out rest

/-- The numeric tokens of the naive regex scan. -/
def naiveTokens (s : List Char) : List (List Char) := ntGo .out s

/-- Even-indexed elements (indices 0, 2, 4, ...). -/
def evens : List ℚ → List ℚ
  | [] => []
  | [x] => [x]
  | x :: _ :: rest => x :: evens rest

/-- Odd-indexed elements (indices 1, 3, 5, ...). -/
def odds : List ℚ → List ℚ
  | [] => []
  | [_] => []
  | _ :: y :: rest => y :: odds rest

/-- parse_svg_path of fix_dotted_path_alignment.py lines 21-38: all numeric
tokens of the string, evens as X and odds as Y, min/max of each; ValueError
when either list is empty. -/
def parse_svg_path_fdpa (s : List Char) : Except PyError Bounds :=
  let coords := (naiveTokens s).filterMap pyFloat
  match evens coords, odds coords with
  | x :: xs, y :: ys =>
    .ok { left := listMin x xs
          top := listMin y ys
          width := listMax x xs - listMin x xs
          height := listMax y ys - listMin y ys }
  | _, _ => .error .valueError

/-- Bridge between the two bounds signatures: an absent bounds value on the
command-aware side corresponds to the ValueError of the naive side. -/
def exceptBounds : Option Bounds → Except PyError Bounds
  | some b => .ok b
  | none => .error .valueError

/-! ## The vertical-flip path transformer (transform_path, extract_telugu.py 100-197) -/

/-- The M/L fallback loop of transform_path: consume (x, y) pairs, flip each
y to em - y; a trailing unpaired number is copied unchanged. -/
def flipPairs (em : ℚ) : List ℚ → List ℚ
  | x :: y :: rest => x :: (em - y) :: flipPairs em rest
  | rest => rest

/-- The Q/T loop of transform_path: consume (x1, y1, x, y) quadruples,
flipping both y operands; fewer than four remaining numbers are copied. -/
def flipQuads (em : ℚ) : List ℚ → List ℚ
  | x1 :: y1 :: x :: y :: rest => x1 :: (em - y1) :: x :: (em - y) :: flipQuads em rest
  | rest => rest

/-- The C/S loop of transform_path: consume (x1, y1, x2, y2, x, y) sextets,
flipping the three y operands; fewer than six remaining are copied. -/
def flipSextets (em : ℚ) : List ℚ → List ℚ
  | x1 :: y1 :: x2 :: y2 :: x :: y :: rest =>
    x1 :: (em - y1) :: x2 :: (em - y2) :: x :: (em - y) :: flipSextets em rest
  | rest => rest

/-- The A loop of transform_path: consume 7-tuples
(rx, ry, rot, largeArc, sweep, x, y), flipping the endpoint y and replacing
the sweep flag by 1 - sweep; fewer than seven remaining are copied. -/
def flipArcs (em : ℚ) : List ℚ → List ℚ
  | rx :: ry :: rot :: la :: sw :: x :: y :: rest =>
    rx :: ry :: rot :: la :: (1 - sw) :: x :: (em - y) :: flipArcs em rest
  | rest => rest

/-- Operand transformation of transform_path, dispatched on the uppercased
command letter: H passes its X scalars through, V flips its Y scalars, A
uses the arc loop, C/S the sextet loop, Q/T the quadruple loop, and
everything else (M, L) the pair loop. -/
def transformNums (em : ℚ) (u : Char) (nums : List ℚ) : List ℚ :=
  if u = 'H' then nums
  else if u = 'V' then nums.map fun y => em - y
  else if u = 'A' then flipArcs em nums
  else if u = 'C' ∨ u = 'S' then flipSextets em nums
  else if u = 'Q' ∨ u = 'T' then flipQuads em nums
  else flipPairs em nums

/-- Rounding of a rational to the nearest integer, ties to even, as CPython
formats the exact value of a small dyadic double with percent .1f (after
scaling by ten). -/
def roundHalfEven (q : ℚ) : ℤ :=
  if q - ⌊q⌋ = 1 / 2 then (if ⌊q⌋ % 2 = 0 then ⌊q⌋ else ⌊q⌋ + 1) else round q

/-- The one-decimal branch of transform_path's number formatting, modelling
the format string on the exact rational value. -/
def formatTenths (n : ℚ) : List Char :=
  let t := roundHalfEven (10 * n)
  let a := t.natAbs
  (if t < 0 then ['-'] else []) ++ (toString (a / 10)).data ++ '.' :: (toString (a % 10)).data

/-- Number formatting of transform_path line 194: a bare integer when the
value is integral, otherwise one decimal place. -/
def formatNum (n : ℚ) : List Char :=
  if n.den = 1 then (toString n.num).data else formatTenths n

/-- Python sep.join for a single-space separator. -/
def joinSpace : List (List Char) → List Char
  | [] => []
  | [w] => w
  | w :: ws => w ++ ' ' :: joinSpace ws

/-- The per-command body of transform_path's loop: Z serialises as a bare
uppercase Z; a command with an empty or all-whitespace operand substring, or
whose operands parse to no numbers, is kept as the bare letter; otherwise
the letter (original case) followed by the transformed, reformatted
operands. -/
def transformCmd (em : ℚ) (c : Char) (ops : List Char) : List Char :=
  if c.toUpper = 'Z' then ['Z']
  else if ops.all isPySpace then [c]
  else
    let nums := parseNums ops
    if nums = [] then [c]
    else c :: ' ' :: joinSpace ((transformNums em c.toUpper nums).map formatNum)

/-- transform_path of extract_telugu.py lines 100-197: scan the commands
with the shared regex (the original string is returned when none match) and
join the transformed commands with single spaces. -/
def transform_path (s : List Char) (em : ℚ) : List Char :=
  let cmds := findCommands s
  if cmds = [] then s
  else joinSpace (cmds.map fun p => transformCmd em p.1 p.2)

/-! ## A well-formed M/L family of path strings

Used to compare the two duplicated bounds computations: a path serialised
from decimal-digit coordinate tokens as M x0 y0 L x1 y1 L x2 y2 and so on,
the form produced by generate_dotted_path.py for straight strokes. -/

/-- One serialised command: the letter, a space, the X token, a space, the
Y token. -/
def mkPt (c : Char) (p : List Char × List Char) : List Char :=
  c :: ' ' :: (p.1 ++ ' ' :: p.2)

/-- The serialised M/L path of a list of coordinate token pairs. -/
def mkMLPath : List (List Char × List Char) → List Char
  | [] => []
  | p :: rest => mkPt 'M' p ++ (rest.map fun q => ' ' :: mkPt 'L' q).flatten

/-- A well-formed coordinate token: nonempty and all decimal digits. -/
def digitTok (w : List Char) : Bool := !w.isEmpty && w.all Char.isDigit

/-- The rational coordinate pair a token pair denotes. -/
def tokVal (p : List Char × List Char) : ℚ × ℚ :=
  ((digitsVal p.1 : ℚ), (digitsVal p.2 : ℚ))

/-- The serialised commands after the first one of an M/L path. -/
def tailStr (rest : List (List Char × List Char)) : List Char :=
  (rest.map fun q => ' ' :: mkPt 'L' q).flatten

/-- The command/operand-substring pairs the regex scan yields on a
serialised M/L path: every command before the last captures its trailing
separator space in its operand group. -/
def mlRawCmds (c : Char) : List (List Char × List Char) → List (Char × List Char)
  | [] => []
  | [p] => [(c, p.1 ++ ' ' :: p.2)]
  | p :: q :: rest => (c, p.1 ++ ' ' :: p.2 ++ [' ']) :: mlRawCmds 'L' (q :: rest)

/-- The parsed commands of a serialised M/L path whose first letter is c. -/
def mlParsedWith (c : Char) : List (List Char × List Char) → List (Char × List ℚ)
  | [] => []
  | p :: rest => (c, [(tokVal p).1, (tokVal p).2]) ::
      rest.map fun q => ('L', [(tokVal q).1, (tokVal q).2])

/-! ## General helper lemmas -/

theorem takeDigits_eq (l : List Char) :
    takeDigits l = (l.takeWhile Char.isDigit, l.dropWhile Char.isDigit) := by
  induction l with
  | nil => rfl
  | cons c rest ih =>
    by_cases hc : c.isDigit
    · simp [takeDigits, hc, ih, List.takeWhile_cons, List.dropWhile_cons]
    · simp [takeDigits, hc, List.takeWhile_cons, List.dropWhile_cons]

theorem takeWhile_append_all {p : Char → Bool} {l : List Char} (r : List Char)
    (h : ∀ c ∈ l, p c) : (l ++ r).takeWhile p = l ++ r.takeWhile p := by
  induction l with
  | nil => simp
  | cons a t ih =>
    simp only [List.cons_append, List.takeWhile_cons, h a (by simp)]
    simp [ih fun c hc => h c (by simp [hc])]

theorem dropWhile_append_all {p : Char → Bool} {l : List Char} (r : List Char)
    (h : ∀ c ∈ l, p c) : (l ++ r).dropWhile p = r.dropWhile p := by
  induction l with
  | nil => simp
  | cons a t ih =>
    simp only [List.cons_append, List.dropWhile_cons, h a (by simp)]
    simp [ih fun c hc => h c (by simp [hc])]

theorem isDigit_ne_of_ne {c d : Char} (hd : d.isDigit = false) (hc : c.isDigit) :
    c ≠ d := by
  intro h
  rw [h, hd] at hc
  exact Bool.false_ne_true hc

theorem takeDigits_all_digits {d : List Char} (h : ∀ c ∈ d, c.isDigit) (r : List Char)
    (hr : r.head? ≠ some '.' → True) (hhead : ∀ c, r.head? = some c → c.isDigit = false) :
    takeDigits (d ++ r) = (d, r) := by
  rw [takeDigits_eq, takeWhile_append_all r h, dropWhile_append_all r h]
  cases r with
  | nil => simp
  | cons a t =>
    have := hhead a rfl
    simp [List.takeWhile_cons, List.dropWhile_cons, this]

/-- Evaluation of float() on a nonempty all-digit token. -/
theorem pyFloat_digits {d : List Char} (h1 : d ≠ []) (h2 : ∀ c ∈ d, c.isDigit) :
    pyFloat d = some ((digitsVal d : ℕ) : ℚ) := by
  obtain ⟨c, t, rfl⟩ := List.exists_cons_of_ne_nil h1
  have hc : c.isDigit := h2 c (by simp)
  have hm : c ≠ '-' := isDigit_ne_of_ne (by decide) hc
  have hp : c ≠ '+' := isDigit_ne_of_ne (by decide) hc
  have htd : takeDigits (c :: t) = (c :: t, []) := by
    have := takeDigits_all_digits (d := c :: t) h2 [] (fun _ => trivial) (by simp)
    simpa using this
  simp [pyFloat, hm, hp, htd, expPart]

/-- Evaluation of float() on a minus sign followed by digits. -/
theorem pyFloat_neg {d : List Char} (h1 : d ≠ []) (h2 : ∀ c ∈ d, c.isDigit) :
    pyFloat ('-' :: d) = some (-(digitsVal d : ℚ)) := by
  have htd : takeDigits d = (d, []) := by
    have := takeDigits_all_digits (d := d) h2 [] (fun _ => trivial) (by simp)
    simpa using this
  simp [pyFloat, htd, h1, expPart]

/-- Evaluation of float() on a token of digits, a decimal point, and more
digits. -/
theorem pyFloat_dec {d f : List Char} (h1 : d ≠ []) (h2 : ∀ c ∈ d, c.isDigit)
    (h3 : ∀ c ∈ f, c.isDigit) :
    pyFloat (d ++ '.' :: f) =
      some ((digitsVal d : ℚ) + (digitsVal f : ℚ) / 10 ^ f.length) := by
  obtain ⟨c, t, rfl⟩ := List.exists_cons_of_ne_nil h1
  have hc : c.isDigit := h2 c (by simp)
  have hm : c ≠ '-' := isDigit_ne_of_ne (by decide) hc
  have hp : c ≠ '+' := isDigit_ne_of_ne (by decide) hc
  have htd : takeDigits ((c :: t) ++ '.' :: f) = (c :: t, '.' :: f) :=
    takeDigits_all_digits h2 ('.' :: f) (fun _ => trivial) (by simp)
  have htf : takeDigits f = (f, []) := by
    have := takeDigits_all_digits (d := f) h3 [] (fun _ => trivial) (by simp)
    simpa using this
  simp only [List.cons_append] at htd
  simp [pyFloat, hm, hp, htd, htf, expPart]

/-! ## Claim theorems -/

/-- C1: for every point and every fit transform with nonzero scale, the
reverse transform of visualize_points.py undoes the forward transform
exactly (hence in particular to within any positive relative epsilon). -/
theorem fit_roundtrip (x y : ℚ) (t : Transform) (h : t.scale ≠ 0) :
    transform_point_from_flutter_space
      (transform_point_to_flutter_space x y t).1
      (transform_point_to_flutter_space x y t).2 t = .ok (x, y) := by
  simp only [transform_point_to_flutter_space, transform_point_from_flutter_space,
    if_neg h, Except.ok.injEq, Prod.mk.injEq]
  constructor <;> field_simp

/-- Witness for C1 at the concrete point (11, 13) and fit (5, 7, -2). -/
theorem fit_roundtrip_witness :
    transform_point_from_flutter_space
      (transform_point_to_flutter_space 11 13 ⟨5, 7, -2⟩).1
      (transform_point_to_flutter_space 11 13 ⟨5, 7, -2⟩).2 ⟨5, 7, -2⟩ = .ok (11, 13) :=
  fit_roundtrip 11 13 ⟨5, 7, -2⟩ (by norm_num)

/-- C2: on non-degenerate bounds the computed fit is exactly the
fit-within-square-then-center formula of the specification. -/
theorem calculate_flutter_transform_spec (b : Bounds) (v : ℚ)
    (hw : b.width ≠ 0) (hh : b.height ≠ 0) :
    calculate_flutter_transform b v = .ok
      { scale := min (v / b.width) (v / b.height)
        tx := (v - b.width * min (v / b.width) (v / b.height)) / 2
              - b.left * min (v / b.width) (v / b.height)
        ty := (v - b.height * min (v / b.width) (v / b.height)) / 2
              - b.top * min (v / b.width) (v / b.height) } := by
  simp [calculate_flutter_transform, hw, hh]

/-- Witness for C2: bounds (0, 0, 100, 200) at target size 300 give scale
3/2, translate (75, 0). -/
theorem calculate_flutter_transform_spec_witness :
    calculate_flutter_transform ⟨0, 0, 100, 200⟩ 300 = .ok ⟨3/2, 75, 0⟩ := by
  have h := calculate_flutter_transform_spec ⟨0, 0, 100, 200⟩ 300 (by norm_num) (by norm_num)
  rw [h]
  norm_num [min_def]

/-- C3, counterexample: on zero-width bounds the transform computation ends
in the division-by-zero failure itself (the untyped ZeroDivisionError of the
scale_x division) — there is no DegenerateBounds-typed error anywhere in the
code for it to fail with. -/
theorem degenerate_bounds_cex :
    calculate_flutter_transform ⟨0, 0, 0, 100⟩ 300 = .error .zeroDivision := by
  simp [calculate_flutter_transform]

/-- C3, amended: whenever width or height is zero the fit computation fails
with the ZeroDivisionError of the scale divisions (so it never silently
substitutes a default fit, but the failure is the untyped division-by-zero
exception, not a typed DegenerateBounds error). -/
theorem degenerate_bounds_zero_division (b : Bounds) (v : ℚ)
    (h : b.width = 0 ∨ b.height = 0) :
    calculate_flutter_transform b v = .error .zeroDivision := by
  simp [calculate_flutter_transform, h]

/-- Witness for the amended C3 at zero-height bounds. -/
theorem degenerate_bounds_zero_division_witness :
    calculate_flutter_transform ⟨5, 5, 7, 0⟩ 300 = .error .zeroDivision :=
  degenerate_bounds_zero_division ⟨5, 5, 7, 0⟩ 300 (Or.inr rfl)

/-- C4, counterexample: the stroke point (0.5, 0.5) under fit
(3/2, 75, 0) with display size 300 reverse-transforms to (50, 100), not to
the (150, 50) the claim states. -/
theorem project_half_half_cex :
    reverse_transform_point (1/2) (1/2) ⟨3/2, 75, 0⟩ 300 = .ok (50, 100) ∧
    reverse_transform_point (1/2) (1/2) ⟨3/2, 75, 0⟩ 300 ≠ .ok (150, 50) := by
  have h : reverse_transform_point (1/2) (1/2) ⟨3/2, 75, 0⟩ 300 = .ok (50, 100) := by
    simp only [reverse_transform_point, transform_point_from_flutter_space]
    norm_num
  refine ⟨h, ?_⟩
  rw [h]
  simp only [ne_eq, Except.ok.injEq, Prod.mk.injEq, not_and]
  intro h50
  norm_num at h50

/-- C4, amended: the stroke point (0.5, 0.5) under fit (3/2, 75, 0) with
display size 300 inverts to the outline-space point (50, 100). -/
theorem project_half_half :
    reverse_transform_point (1/2) (1/2) ⟨3/2, 75, 0⟩ 300 = .ok (50, 100) := by
  simp only [reverse_transform_point, transform_point_from_flutter_space]
  norm_num

/-- C6, counterexample: the forward projection to normalized display space
clamps — the out-of-range source point (2, -1) under the identity fit with
view size 1 comes out as (1, 0), not unchanged. -/
theorem encode_clamps_cex :
    svg_to_flutter_normalized 2 (-1) ⟨1, 0, 0⟩ 1 = .ok (1, 0) ∧
    svg_to_flutter_normalized 2 (-1) ⟨1, 0, 0⟩ 1 ≠ .ok (2, -1) := by
  have h : svg_to_flutter_normalized 2 (-1) ⟨1, 0, 0⟩ 1 = .ok (1, 0) := by
    simp only [svg_to_flutter_normalized]
    norm_num [min_def, max_def]
  refine ⟨h, ?_⟩
  rw [h]
  simp only [ne_eq, Except.ok.injEq, Prod.mk.injEq, not_and]
  intro h2
  norm_num at h2

/-- C6, amended: decoding a stroke point and the reverse projection pass
out-of-range coordinates through unchanged, but the forward projection
svg_to_flutter_normalized clamps both result coordinates into [0, 1]. -/
theorem clamping_behaviour :
    (∀ x y t v p, svg_to_flutter_normalized x y t v = .ok p →
      0 ≤ p.1 ∧ p.1 ≤ 1 ∧ 0 ≤ p.2 ∧ p.2 ≤ 1) ∧
    parse_point ("2.5,-3".data) = some (5/2, -3) ∧
    reverse_transform_point 2 (-1) ⟨1, 0, 0⟩ 1 = .ok (2, -1) := by
  refine ⟨?_, ?_, ?_⟩
  · intro x y t v p hp
    by_cases hv : v = 0
    · simp [svg_to_flutter_normalized, hv] at hp
    · simp only [svg_to_flutter_normalized, if_neg hv, Except.ok.injEq] at hp
      subst hp
      refine ⟨le_max_left 0 _, max_le (by norm_num) (min_le_left 1 _),
        le_max_left 0 _, max_le (by norm_num) (min_le_left 1 _)⟩
  · have hs : splitComma ("2.5,-3".data) = [['2', '.', '5'], ['-', '3']] := by decide
    have hstrip1 : pyStrip ['2', '.', '5'] = ['2', '.', '5'] := by decide
    have hstrip2 : pyStrip ['-', '3'] = ['-', '3'] := by decide
    have h1 : pyFloat ['2', '.', '5'] = some (5/2) := by
      have he := pyFloat_dec (d := ['2']) (f := ['5']) (by simp) (by decide) (by decide)
      simp only [List.cons_append, List.nil_append] at he
      have e1 : digitsVal ['2'] = 2 := by decide
      have e2 : digitsVal ['5'] = 5 := by decide
      rw [he, e1, e2]
      norm_num
    have h2 : pyFloat ['-', '3'] = some (-3) := by
      have he := pyFloat_neg (d := ['3']) (by simp) (by decide)
      have e1 : digitsVal ['3'] = 3 := by decide
      rw [he, e1]
      norm_num
    simp [parse_point, hs, hstrip1, hstrip2, h1, h2]
  · simp only [reverse_transform_point, transform_point_from_flutter_space]
    norm_num

/-- Evaluation form of pyFloat_digits with the numeric value precomputed. -/
theorem pyFloat_nat (d : List Char) (n : ℕ) (h1 : d ≠ []) (h2 : ∀ c ∈ d, c.isDigit)
    (h3 : digitsVal d = n) : pyFloat d = some (n : ℚ) := by
  rw [pyFloat_digits h1 h2, h3]

/-- C5, counterexample: the parser uppercases the letters of the relative
path m 10 20 l 5 5 but keeps the raw relative operands — the result equals
the parse of the absolute path M 10 20 L 5 5 and the l command's operands
stay (5, 5) instead of the absolute position (15, 25). -/
theorem relative_commands_cex :
    parse_svg_path_fja ("m 10 20 l 5 5".data) = [('M', [10, 20]), ('L', [5, 5])] ∧
    parse_svg_path_fja ("m 10 20 l 5 5".data) = parse_svg_path_fja ("M 10 20 L 5 5".data) ∧
    parse_svg_path_fja ("m 10 20 l 5 5".data) ≠ [('M', [10, 20]), ('L', [15, 25])] := by
  have hf1 : findCommands ("m 10 20 l 5 5".data) =
      [('m', ['1', '0', ' ', '2', '0', ' ']), ('l', ['5', ' ', '5'])] := by decide
  have hf2 : findCommands ("M 10 20 L 5 5".data) =
      [('M', ['1', '0', ' ', '2', '0', ' ']), ('L', ['5', ' ', '5'])] := by decide
  have hn1 : parseNums ['1', '0', ' ', '2', '0', ' '] = [10, 20] := by
    simp [parseNums, commaToSpace,
      show pyWords ['1', '0', ' ', '2', '0', ' '] = [['1', '0'], ['2', '0']] from by decide,
      pyFloat_nat ['1', '0'] 10 (by simp) (by decide) (by decide),
      pyFloat_nat ['2', '0'] 20 (by simp) (by decide) (by decide)]
  have hn2 : parseNums ['5', ' ', '5'] = [5, 5] := by
    simp [parseNums, commaToSpace,
      show pyWords ['5', ' ', '5'] = [['5'], ['5']] from by decide,
      pyFloat_nat ['5'] 5 (by simp) (by decide) (by decide)]
  have h1 : parse_svg_path_fja ("m 10 20 l 5 5".data) = [('M', [10, 20]), ('L', [5, 5])] := by
    simp [parse_svg_path_fja, fjaCmd, List.filterMap_cons, isPySpace, hf1, hn1, hn2]
  have h2 : parse_svg_path_fja ("M 10 20 L 5 5".data) = [('M', [10, 20]), ('L', [5, 5])] := by
    simp [parse_svg_path_fja, fjaCmd, List.filterMap_cons, isPySpace, hf2, hn1, hn2]
  refine ⟨h1, h1.trans h2.symm, ?_⟩
  rw [h1]
  simp only [ne_eq, List.cons.injEq, Prod.mk.injEq]
  intro hbad
  have := hbad.2.1.2
  simp only [List.cons.injEq] at this
  norm_num at this

/-- C5, amended: command letters are identified case-insensitively and
uppercased in the output, but relative (lowercase) commands are not resolved
against the running current point — both duplicated parsers pass the raw
operands through unchanged, so downstream components receive relative
operands as if they were absolute. -/
theorem relative_commands_raw :
    parse_svg_path_vis ("m 7 8 l 1 2".data) = parse_svg_path_vis ("M 7 8 L 1 2".data) ∧
    parse_svg_path_vis ("m 7 8 l 1 2".data) = [('M', [7, 8]), ('L', [1, 2])] ∧
    parse_svg_path_fja ("m 7 8 l 1 2".data) = [('M', [7, 8]), ('L', [1, 2])] := by
  have hf1 : findCommands ("m 7 8 l 1 2".data) =
      [('m', ['7', ' ', '8', ' ']), ('l', ['1', ' ', '2'])] := by decide
  have hf2 : findCommands ("M 7 8 L 1 2".data) =
      [('M', ['7', ' ', '8', ' ']), ('L', ['1', ' ', '2'])] := by decide
  have hn1 : parseNums ['7', ' ', '8', ' '] = [7, 8] := by
    simp [parseNums, commaToSpace,
      show pyWords ['7', ' ', '8', ' '] = [['7'], ['8']] from by decide,
      pyFloat_nat ['7'] 7 (by simp) (by decide) (by decide),
      pyFloat_nat ['8'] 8 (by simp) (by decide) (by decide)]
  have hn2 : parseNums ['1', ' ', '2'] = [1, 2] := by
    simp [parseNums, commaToSpace,
      show pyWords ['1', ' ', '2'] = [['1'], ['2']] from by decide,
      pyFloat_nat ['1'] 1 (by simp) (by decide) (by decide),
      pyFloat_nat ['2'] 2 (by simp) (by decide) (by decide)]
  refine ⟨?_, ?_, ?_⟩
  · simp [parse_svg_path_vis, hf1, hf2]
  · simp [parse_svg_path_vis, hf1, hn1, hn2]
  · simp [parse_svg_path_fja, fjaCmd, List.filterMap_cons, isPySpace, hf1, hn1, hn2]

/-- C7, counterexample: in fix_json_alignment's parser a dangling non-Z
command letter with no operands is dropped, not retained as a zero-operand
command. -/
theorem dangling_letter_cex :
    parse_svg_path_fja ("M".data) = [] ∧
    parse_svg_path_fja ("M".data) ≠ [('M', [])] := by
  have hf : findCommands ("M".data) = [('M', [])] := by decide
  constructor
  · simp [parse_svg_path_fja, fjaCmd, List.filterMap_cons, isPySpace, hf]
  · simp [parse_svg_path_fja, fjaCmd, List.filterMap_cons, isPySpace, hf]

/-- C7, amended: both parsers are total; Z parses to exactly one
zero-operand ClosePath in each, and malformed numeric substrings (here
1.2.3) are dropped from the operand list; but a dangling non-Z letter is
retained as a zero-operand command only by visualize_points' parser and is
dropped by fix_json_alignment's. -/
theorem parser_tolerance :
    parse_svg_path_fja ("Z".data) = [('Z', [])] ∧
    parse_svg_path_vis ("Z".data) = [('Z', [])] ∧
    parse_svg_path_vis ("M".data) = [('M', [])] ∧
    parse_svg_path_fja ("M".data) = [] ∧
    parse_svg_path_fja ("L 1.2.3 4 5".data) = [('L', [4, 5])] := by
  have hz : findCommands ("Z".data) = [('Z', [])] := by decide
  have hm : findCommands ("M".data) = [('M', [])] := by decide
  have hl : findCommands ("L 1.2.3 4 5".data) =
      [('L', ['1', '.', '2', '.', '3', ' ', '4', ' ', '5'])] := by decide
  have hbad : pyFloat ['1', '.', '2', '.', '3'] = none := by
    have h1 : takeDigits ['1', '.', '2', '.', '3'] = (['1'], ['.', '2', '.', '3']) := by decide
    have h2 : takeDigits ['2', '.', '3'] = (['2'], ['.', '3']) := by decide
    simp [pyFloat, h1, h2, expPart]
  have hn : parseNums ['1', '.', '2', '.', '3', ' ', '4', ' ', '5'] = [4, 5] := by
    simp [parseNums, commaToSpace,
      show pyWords ['1', '.', '2', '.', '3', ' ', '4', ' ', '5'] =
        [['1', '.', '2', '.', '3'], ['4'], ['5']] from by decide,
      hbad,
      pyFloat_nat ['4'] 4 (by simp) (by decide) (by decide),
      pyFloat_nat ['5'] 5 (by simp) (by decide) (by decide)]
  refine ⟨?_, ?_, ?_, ?_, ?_⟩
  · simp [parse_svg_path_fja, fjaCmd, List.filterMap_cons, isPySpace, hz]
  · simp [parse_svg_path_vis, hz]
  · simp [parse_svg_path_vis, hm]
  · simp [parse_svg_path_fja, fjaCmd, List.filterMap_cons, isPySpace, hm]
  · simp [parse_svg_path_fja, fjaCmd, List.filterMap_cons, isPySpace, hl, hn]

/-- Evaluation form of pyFloat_neg with the numeric value precomputed. -/
theorem pyFloat_negNat (d : List Char) (n : ℕ) (h1 : d ≠ []) (h2 : ∀ c ∈ d, c.isDigit)
    (h3 : digitsVal d = n) : pyFloat ('-' :: d) = some (-(n : ℚ)) := by
  rw [pyFloat_neg h1 h2, h3]

theorem sample_quadratic_ne_nil (x0 y0 x1 y1 x2 y2 : ℚ) (n : ℕ) :
    sample_quadratic_bezier x0 y0 x1 y1 x2 y2 n ≠ [] := by
  simp only [sample_quadratic_bezier, ne_eq, List.map_eq_nil_iff, List.range_eq_nil]
  exact fun h => Nat.succ_ne_zero n h

theorem sample_cubic_ne_nil (x0 y0 x1 y1 x2 y2 x3 y3 : ℚ) (n : ℕ) :
    sample_cubic_bezier x0 y0 x1 y1 x2 y2 x3 y3 n ≠ [] := by
  simp only [sample_cubic_bezier, ne_eq, List.map_eq_nil_iff, List.range_eq_nil]
  exact fun h => Nat.succ_ne_zero n h

/-- A command appends no point exactly when it fails every branch of
get_svg_bounds' chain, independently of the current point. -/
theorem cmdPoints_eq_nil (cx cy : ℚ) (c : Char × List ℚ) :
    cmdPoints cx cy c = [] ↔ contributes c = false := by
  obtain ⟨ch, coords⟩ := c
  unfold cmdPoints contributes
  rcases coords with _ | ⟨a, _ | ⟨b, _ | ⟨d, _ | ⟨e, _ | ⟨f, _ | ⟨g, r⟩⟩⟩⟩⟩⟩ <;>
    split_ifs <;>
      simp_all [sample_quadratic_ne_nil, sample_cubic_ne_nil]

/-- The accumulated point list is empty exactly when every parsed command is
non-contributing. -/
theorem accumPoints_eq_nil (cs : List (Char × List ℚ)) : ∀ cx cy,
    accumPoints cx cy cs = [] ↔ cs.all (fun c => !contributes c) = true := by
  induction cs with
  | nil => simp [accumPoints]
  | cons c cs ih =>
    intro cx cy
    simp [accumPoints, ih, cmdPoints_eq_nil]

theorem boundsOfPoints_eq_none (ps : List (ℚ × ℚ)) :
    boundsOfPoints ps = none ↔ ps = [] := by
  cases ps <;> simp [boundsOfPoints]

/-- C8, counterexample: the smooth-quadratic command T and a MoveTo with a
single operand both carry coordinates, yet the bounds computation ignores
them and returns None. -/
theorem bounds_none_cex :
    parse_svg_path_fja ("T 3 4".data) = [('T', [3, 4])] ∧
    get_svg_bounds ("T 3 4".data) = none ∧
    parse_svg_path_fja ("M 5".data) = [('M', [5])] ∧
    get_svg_bounds ("M 5".data) = none := by
  have hft : findCommands ("T 3 4".data) = [('T', ['3', ' ', '4'])] := by decide
  have hfm : findCommands ("M 5".data) = [('M', ['5'])] := by decide
  have hnt : parseNums ['3', ' ', '4'] = [3, 4] := by
    simp [parseNums, commaToSpace,
      show pyWords ['3', ' ', '4'] = [['3'], ['4']] from by decide,
      pyFloat_nat ['3'] 3 (by simp) (by decide) (by decide),
      pyFloat_nat ['4'] 4 (by simp) (by decide) (by decide)]
  have hnm : parseNums ['5'] = [5] := by
    simp [parseNums, commaToSpace,
      show pyWords ['5'] = [['5']] from by decide,
      pyFloat_nat ['5'] 5 (by simp) (by decide) (by decide)]
  have ht : parse_svg_path_fja ("T 3 4".data) = [('T', [3, 4])] := by
    simp [parse_svg_path_fja, fjaCmd, List.filterMap_cons, isPySpace, hft, hnt]
  have hm : parse_svg_path_fja ("M 5".data) = [('M', [5])] := by
    simp [parse_svg_path_fja, fjaCmd, List.filterMap_cons, isPySpace, hfm, hnm]
  refine ⟨ht, ?_, hm, ?_⟩
  · rw [get_svg_bounds, ht]
    simp [accumPoints, cmdPoints, boundsOfPoints]
  · rw [get_svg_bounds, hm]
    simp [accumPoints, cmdPoints, boundsOfPoints]

/-- Shared evaluation: the command-aware parse of the concrete curved path
used to compare the two bounds computations. -/
theorem qpath_parse :
    parse_svg_path_fja ("M 0 0 Q 50 -100 100 0".data) =
      [('M', [0, 0]), ('Q', [50, -100, 100, 0])] := by
  have hf : findCommands ("M 0 0 Q 50 -100 100 0".data) =
      [('M', ['0', ' ', '0', ' ']), ('Q', ['5', '0', ' ', '-', '1', '0', '0', ' ', '1', '0', '0', ' ', '0'])] := by
    decide
  have hn1 : parseNums ['0', ' ', '0', ' '] = [0, 0] := by
    simp [parseNums, commaToSpace,
      show pyWords ['0', ' ', '0', ' '] = [['0'], ['0']] from by decide,
      pyFloat_nat ['0'] 0 (by simp) (by decide) (by decide)]
  have hn2 : parseNums ['5', '0', ' ', '-', '1', '0', '0', ' ', '1', '0', '0', ' ', '0'] =
      [50, -100, 100, 0] := by
    simp [parseNums, commaToSpace,
      show pyWords ['5', '0', ' ', '-', '1', '0', '0', ' ', '1', '0', '0', ' ', '0'] =
        [['5', '0'], ['-', '1', '0', '0'], ['1', '0', '0'], ['0']] from by decide,
      pyFloat_nat ['5', '0'] 50 (by simp) (by decide) (by decide),
      pyFloat_negNat ['1', '0', '0'] 100 (by simp) (by decide) (by decide),
      pyFloat_nat ['1', '0', '0'] 100 (by simp) (by decide) (by decide),
      pyFloat_nat ['0'] 0 (by simp) (by decide) (by decide)]
  simp [parse_svg_path_fja, fjaCmd, List.filterMap_cons, isPySpace, hf, hn1, hn2]

/-- Shared evaluation: the 21 sampled points of the Q segment of that path
(the extremum -50 at t = 1/2 lies strictly inside the segment). -/
theorem qpath_samples :
    sample_quadratic_bezier 0 0 50 (-100) 100 0 20 =
      [(0, 0), (5, -19/2), (10, -18), (15, -51/2), (20, -32), (25, -75/2), (30, -42),
       (35, -91/2), (40, -48), (45, -99/2), (50, -50), (55, -99/2), (60, -48), (65, -91/2),
       (70, -42), (75, -75/2), (80, -32), (85, -51/2), (90, -18), (95, -19/2), (100, 0)] := by
  norm_num [sample_quadratic_bezier, List.range_succ]

/-- Shared evaluation: the command-aware, curve-sampling bounds of the
concrete curved path. -/
theorem qpath_bounds :
    get_svg_bounds ("M 0 0 Q 50 -100 100 0".data) = some ⟨0, -50, 100, 50⟩ := by
  rw [get_svg_bounds, qpath_parse]
  rw [show accumPoints 0 0 [('M', [0, 0]), ('Q', [50, -100, 100, 0])] =
      (0, 0) :: sample_quadratic_bezier 0 0 50 (-100) 100 0 20 from by
    simp [accumPoints, cmdPoints, cmdNext]]
  rw [qpath_samples]
  norm_num [boundsOfPoints, listMin, listMax, min_def, max_def]

/-- C8, amended: the bounds computation returns None exactly when no parsed
command enters a point-appending branch (an M or L with at least two
operands, a Q with at least four, a C with at least six, an H or V with an
operand) — commands of kind S, T or A and under-supplied commands carry
coordinates but are ignored; when bounds exist, every sampled curve point is
folded in, so the concrete quadratic path M 0 0 Q 50 -100 100 0 gets top
-50 (the mid-curve sample), not the 0 of its endpoints. -/
theorem bounds_none_iff :
    (∀ s, get_svg_bounds s = none ↔
      (parse_svg_path_fja s).all (fun c => !contributes c) = true) ∧
    get_svg_bounds ("M 0 0 Q 50 -100 100 0".data) = some ⟨0, -50, 100, 50⟩ := by
  refine ⟨fun s => ?_, qpath_bounds⟩
  rw [get_svg_bounds, boundsOfPoints_eq_none, accumPoints_eq_nil]

/-- C9: the vertical flip with axis size a maps coordinate pairs (x, y) to
(x, a - y), passes H operands through with H kept as an H command, flips the
arc endpoint Y and complements the sweep flag while keeping radii and
rotation, and re-serialises the concrete square path
M 0 0 L 100 0 L 100 100 Z at axis size 100 to M 0 100 L 100 100 L 100 0 Z. -/
theorem flip_transform_spec :
    transform_path ("M 0 0 L 100 0 L 100 100 Z".data) 100 =
      ("M 0 100 L 100 100 L 100 0 Z".data) ∧
    transform_path ("H 50".data) 100 = ("H 50".data) ∧
    (∀ em nums, transformNums em 'H' nums = nums) ∧
    (∀ em y, transformNums em 'V' [y] = [em - y]) ∧
    (∀ em rx ry rot la sw x y,
      transformNums em 'A' [rx, ry, rot, la, sw, x, y] =
        [rx, ry, rot, la, 1 - sw, x, em - y]) ∧
    (∀ em x y, transformNums em 'M' [x, y] = [x, em - y]) ∧
    (∀ em x y, transformNums em 'L' [x, y] = [x, em - y]) := by
  have f0 : formatNum 0 = ['0'] := by
    rw [formatNum, if_pos (show (0 : ℚ).den = 1 by norm_num),
      show ((0 : ℚ).num = 0) from by norm_num]
    decide
  have f50 : formatNum 50 = ['5', '0'] := by
    rw [formatNum, if_pos (show (50 : ℚ).den = 1 by norm_num),
      show ((50 : ℚ).num = 50) from by norm_num]
    decide
  have f100 : formatNum 100 = ['1', '0', '0'] := by
    rw [formatNum, if_pos (show (100 : ℚ).den = 1 by norm_num),
      show ((100 : ℚ).num = 100) from by norm_num]
    decide
  refine ⟨?_, ?_, ?_, ?_, ?_, ?_, ?_⟩
  · have hf : findCommands ("M 0 0 L 100 0 L 100 100 Z".data) =
        [('M', ['0', ' ', '0', ' ']), ('L', ['1', '0', '0', ' ', '0', ' ']),
         ('L', ['1', '0', '0', ' ', '1', '0', '0', ' ']), ('Z', [])] := by decide
    have hn1 : parseNums ['0', ' ', '0', ' '] = [0, 0] := by
      simp [parseNums, commaToSpace,
        show pyWords ['0', ' ', '0', ' '] = [['0'], ['0']] from by decide,
        pyFloat_nat ['0'] 0 (by simp) (by decide) (by decide)]
    have hn2 : parseNums ['1', '0', '0', ' ', '0', ' '] = [100, 0] := by
      simp [parseNums, commaToSpace,
        show pyWords ['1', '0', '0', ' ', '0', ' '] = [['1', '0', '0'], ['0']] from by decide,
        pyFloat_nat ['1', '0', '0'] 100 (by simp) (by decide) (by decide),
        pyFloat_nat ['0'] 0 (by simp) (by decide) (by decide)]
    have hn3 : parseNums ['1', '0', '0', ' ', '1', '0', '0', ' '] = [100, 100] := by
      simp [parseNums, commaToSpace,
        show pyWords ['1', '0', '0', ' ', '1', '0', '0', ' '] = [['1', '0', '0'], ['1', '0', '0']]
          from by decide,
        pyFloat_nat ['1', '0', '0'] 100 (by simp) (by decide) (by decide)]
    have ht1 : transformNums 100 'M' [0, 0] = [0, 100] := by
      simp [transformNums, flipPairs]
    have ht2 : transformNums 100 'L' [100, 0] = [100, 100] := by
      simp [transformNums, flipPairs]
    have ht3 : transformNums 100 'L' [100, 100] = [100, 0] := by
      simp [transformNums, flipPairs]
    have hc1 : transformCmd 100 'M' ['0', ' ', '0', ' '] = ['M', ' ', '0', ' ', '1', '0', '0'] := by
      rw [transformCmd, if_neg (by decide), if_neg (by decide)]
      simp only [hn1]
      rw [if_neg (by simp)]
      simp only [ht1, List.map_cons, List.map_nil, f0, f100, joinSpace]
      simp only [show ((100 : ℚ) - 0) = 100 from by norm_num,
        show ((100 : ℚ) - 100) = 0 from by norm_num, f0, f100]
      decide
    have hc2 : transformCmd 100 'L' ['1', '0', '0', ' ', '0', ' '] =
        ['L', ' ', '1', '0', '0', ' ', '1', '0', '0'] := by
      rw [transformCmd, if_neg (by decide), if_neg (by decide)]
      simp only [hn2]
      rw [if_neg (by simp)]
      simp only [ht2, List.map_cons, List.map_nil, f0, f100, joinSpace]
      simp only [show ((100 : ℚ) - 0) = 100 from by norm_num,
        show ((100 : ℚ) - 100) = 0 from by norm_num, f0, f100]
      decide
    have hc3 : transformCmd 100 'L' ['1', '0', '0', ' ', '1', '0', '0', ' '] =
        ['L', ' ', '1', '0', '0', ' ', '0'] := by
      rw [transformCmd, if_neg (by decide), if_neg (by decide)]
      simp only [hn3]
      rw [if_neg (by simp)]
      simp only [ht3, List.map_cons, List.map_nil, f0, f100, joinSpace]
      simp only [show ((100 : ℚ) - 0) = 100 from by norm_num,
        show ((100 : ℚ) - 100) = 0 from by norm_num, f0, f100]
      decide
    have hcz : transformCmd 100 'Z' [] = ['Z'] := by
      simp [transformCmd]
    rw [transform_path, hf]
    simp only [List.map_cons, List.map_nil, hc1, hc2, hc3, hcz]
    decide
  · have hf : findCommands ("H 50".data) = [('H', ['5', '0'])] := by decide
    have hn : parseNums ['5', '0'] = [50] := by
      simp [parseNums, commaToSpace,
        show pyWords ['5', '0'] = [['5', '0']] from by decide,
        pyFloat_nat ['5', '0'] 50 (by simp) (by decide) (by decide)]
    have ht : transformNums 100 'H' [50] = [50] := by simp [transformNums]
    have hc : transformCmd 100 'H' ['5', '0'] = ['H', ' ', '5', '0'] := by
      rw [transformCmd, if_neg (by decide), if_neg (by decide)]
      simp only [hn]
      rw [if_neg (by simp)]
      simp only [ht, List.map_cons, List.map_nil, f50, joinSpace]
    rw [transform_path, hf]
    simp only [List.map_cons, List.map_nil, hc]
    decide
  · intro em nums
    simp [transformNums]
  · intro em y
    simp [transformNums, List.map]
  · intro em rx ry rot la sw x y
    simp [transformNums, flipArcs]
  · intro em x y
    simp [transformNums, flipPairs]
  · intro em x y
    simp [transformNums, flipPairs]

/-! ## Lemmas for the naive-scan side of the bounds comparison -/

theorem digitTok_ne_nil {w : List Char} (h : digitTok w = true) : w ≠ [] := by
  simp only [digitTok, Bool.and_eq_true, Bool.not_eq_true'] at h
  simpa using h.1

theorem digitTok_digits {w : List Char} (h : digitTok w = true) : ∀ c ∈ w, c.isDigit := by
  simp only [digitTok, Bool.and_eq_true, List.all_eq_true] at h
  exact h.2

theorem operandChar_of_digit {c : Char} (h : c.isDigit = true) : isOperandChar c = true := by
  simp [isOperandChar, h]

theorem not_space_of_digit {c : Char} (h : c.isDigit = true) : isPySpace c = false := by
  have k : ∀ d : Char, d.isDigit = false → (c = d) = False := fun d hd => by
    simp [isDigit_ne_of_ne hd h]
  simp [isPySpace, k ' ' (by decide), k '\t' (by decide), k '\n' (by decide),
    k '\r' (by decide), k '\x0b' (by decide), k '\x0c' (by decide)]

theorem not_cmdLetter_of_digit {c : Char} (h : c.isDigit = true) : isCmdLetter c = false := by
  have k : ∀ d : Char, d.isDigit = false → (c = d) = False := fun d hd => by
    simp [isDigit_ne_of_ne hd h]
  simp [isCmdLetter, k 'M' (by decide), k 'm' (by decide), k 'L' (by decide), k 'l' (by decide),
    k 'H' (by decide), k 'h' (by decide), k 'V' (by decide), k 'v' (by decide),
    k 'C' (by decide), k 'c' (by decide), k 'S' (by decide), k 's' (by decide),
    k 'Q' (by decide), k 'q' (by decide), k 'T' (by decide), k 't' (by decide),
    k 'A' (by decide), k 'a' (by decide), k 'Z' (by decide), k 'z' (by decide)]

theorem ntGo_skip (a : Char) (r : List Char) (h1 : a.isDigit = false) (h2 : a ≠ '-') :
    ntGo .out (a :: r) = ntGo .out r := by
  simp [ntGo, h1, h2]

theorem ntGo_out_digit {d : Char} (hd : d.isDigit = true) (r : List Char) :
    ntGo .out (d :: r) = ntGo (.inNum [d] false) r := by
  simp [ntGo, hd]

theorem ntGo_digits {w : List Char} (hw : ∀ c ∈ w, c.isDigit) :
    ∀ (acc : List Char) (sd : Bool) (r : List Char),
      ntGo (.inNum acc sd) (w ++ r) = ntGo (.inNum (w.reverse ++ acc) sd) r := by
  induction w with
  | nil => simp
  | cons d w ih =>
    intro acc sd r
    have hd : d.isDigit := hw d (by simp)
    cases sd <;>
      simp [ntGo, hd, ih (fun c hc => hw c (by simp [hc])), List.append_assoc]

theorem ntGo_end (acc : List Char) (sd : Bool) : ntGo (.inNum acc sd) [] = [acc.reverse] := by
  cases sd <;> rfl

theorem ntGo_space (acc : List Char) (sd : Bool) (r : List Char) :
    ntGo (.inNum acc sd) (' ' :: r) = acc.reverse :: ntGo .out r := by
  cases sd <;> simp [ntGo]

/-- One numeric token running to the end of the input. -/
theorem ntGo_word_end {d : List Char} (hne : d ≠ []) (hd : ∀ c ∈ d, c.isDigit) :
    ntGo .out d = [d] := by
  obtain ⟨c, t, rfl⟩ := List.exists_cons_of_ne_nil hne
  rw [ntGo_out_digit (hd c (by simp)),
    show t = t ++ ([] : List Char) from (List.append_nil t).symm,
    ntGo_digits (fun x hx => hd x (by simp [hx])) [c] false [], ntGo_end]
  simp

/-- One numeric token followed by a space separator. -/
theorem ntGo_word {d : List Char} (hne : d ≠ []) (hd : ∀ c ∈ d, c.isDigit)
    (r : List Char) : ntGo .out (d ++ ' ' :: r) = d :: ntGo .out r := by
  obtain ⟨c, t, rfl⟩ := List.exists_cons_of_ne_nil hne
  rw [List.cons_append, ntGo_out_digit (hd c (by simp)),
    ntGo_digits (fun x hx => hd x (by simp [hx])) [c] false (' ' :: r), ntGo_space]
  simp

/-- The numeric scan of the body of a serialised M/L path. -/
theorem ntGo_chunk (rest : List (List Char × List Char)) :
    ∀ p : List Char × List Char, digitTok p.1 = true → digitTok p.2 = true →
    (∀ q ∈ rest, digitTok q.1 = true ∧ digitTok q.2 = true) →
    ntGo .out (p.1 ++ ' ' :: (p.2 ++ tailStr rest)) =
      p.1 :: p.2 :: (rest.map fun q => [q.1, q.2]).flatten := by
  induction rest with
  | nil =>
    intro p h1 h2 _
    rw [ntGo_word (digitTok_ne_nil h1) (digitTok_digits h1)]
    simp only [tailStr, List.map_nil, List.flatten_nil, List.append_nil]
    rw [ntGo_word_end (digitTok_ne_nil h2) (digitTok_digits h2)]
  | cons q rest ih =>
    intro p h1 h2 hq
    have hq1 := (hq q (by simp)).1
    have hq2 := (hq q (by simp)).2
    have hT : tailStr (q :: rest) = ' ' :: (mkPt 'L' q ++ tailStr rest) := by
      simp [tailStr]
    rw [ntGo_word (digitTok_ne_nil h1) (digitTok_digits h1), hT,
      ntGo_word (digitTok_ne_nil h2) (digitTok_digits h2)]
    have hM : mkPt 'L' q ++ tailStr rest = 'L' :: ' ' :: (q.1 ++ ' ' :: (q.2 ++ tailStr rest)) := by
      simp [mkPt, List.append_assoc]
    rw [hM, ntGo_skip 'L' _ (by decide) (by decide), ntGo_skip ' ' _ (by decide) (by decide),
      ih q hq1 hq2 (fun x hx => hq x (by simp [hx]))]
    simp

/-- The naive number regex applied to a serialised M/L path yields exactly
the coordinate tokens, in order. -/
theorem naiveTokens_mkMLPath (ps : List (List Char × List Char))
    (h : ∀ p ∈ ps, digitTok p.1 = true ∧ digitTok p.2 = true) :
    naiveTokens (mkMLPath ps) = (ps.map fun p => [p.1, p.2]).flatten := by
  cases ps with
  | nil => rfl
  | cons p rest =>
    have hm : mkMLPath (p :: rest) =
        'M' :: ' ' :: (p.1 ++ ' ' :: (p.2 ++ tailStr rest)) := by
      simp [mkMLPath, mkPt, tailStr, List.append_assoc]
    rw [naiveTokens, hm, ntGo_skip 'M' _ (by decide) (by decide),
      ntGo_skip ' ' _ (by decide) (by decide),
      ntGo_chunk rest p (h p (by simp)).1 (h p (by simp)).2
        (fun q hq => h q (by simp [hq]))]
    simp

theorem filterMap_pyFloat_tokens (ps : List (List Char × List Char))
    (h : ∀ p ∈ ps, digitTok p.1 = true ∧ digitTok p.2 = true) :
    ((ps.map fun p => [p.1, p.2]).flatten).filterMap pyFloat =
      (ps.map fun p => [(tokVal p).1, (tokVal p).2]).flatten := by
  induction ps with
  | nil => rfl
  | cons p rest ih =>
    have h1 := (h p (by simp)).1
    have h2 := (h p (by simp)).2
    simp only [List.map_cons, List.flatten_cons, List.cons_append, List.nil_append,
      List.filterMap_cons,
      pyFloat_digits (digitTok_ne_nil h1) (digitTok_digits h1),
      pyFloat_digits (digitTok_ne_nil h2) (digitTok_digits h2)]
    rw [ih (fun q hq => h q (by simp [hq]))]
    rfl

theorem evens_pairs (l : List (ℚ × ℚ)) :
    evens ((l.map fun v => [v.1, v.2]).flatten) = l.map Prod.fst := by
  induction l with
  | nil => rfl
  | cons v l ih => simp [evens, ih]

theorem odds_pairs (l : List (ℚ × ℚ)) :
    odds ((l.map fun v => [v.1, v.2]).flatten) = l.map Prod.snd := by
  induction l with
  | nil => rfl
  | cons v l ih => simp [odds, ih]

/-! ## Lemmas for the command-aware side of the bounds comparison -/

theorem fcGo_ops {w : List Char} (hw : ∀ a ∈ w, isOperandChar a = true) :
    ∀ (c : Char) (acc r : List Char),
      fcGo (some (c, false, acc)) (w ++ r) = fcGo (some (c, false, w.reverse ++ acc)) r := by
  induction w with
  | nil => simp
  | cons a w ih =>
    intro c acc r
    have ha := hw a (by simp)
    simp [fcGo, ha, ih (fun x hx => hw x (by simp [hx])), List.append_assoc]

theorem fcGo_enter (c : Char) {d : Char} (hd1 : isPySpace d = false)
    (hd2 : isOperandChar d = true) (acc r : List Char) :
    fcGo (some (c, true, acc)) (d :: r) = fcGo (some (c, false, [d])) r := by
  simp [fcGo, hd1, hd2]

theorem fcGo_ws (c : Char) (acc r : List Char) :
    fcGo (some (c, true, acc)) (' ' :: r) = fcGo (some (c, true, [])) r := by
  simp [fcGo, isPySpace]

theorem fcGo_emit_letter {l : Char} (hl : isCmdLetter l = true)
    (hop : isOperandChar l = false) (c : Char) (acc r : List Char) :
    fcGo (some (c, false, acc)) (l :: r) =
      (c, acc.reverse) :: fcGo (some (l, true, [])) r := by
  simp [fcGo, hl, hop]

theorem fcGo_final (c : Char) (acc : List Char) :
    fcGo (some (c, false, acc)) [] = [(c, acc.reverse)] := rfl

theorem fcGo_letter {l : Char} (hl : isCmdLetter l = true) (r : List Char) :
    fcGo none (l :: r) = fcGo (some (l, true, [])) r := by
  simp [fcGo, hl]

/-- A nonempty digit word entered from the whitespace phase. -/
theorem fcGo_word (c : Char) {w : List Char} (hne : w ≠ []) (hw : ∀ a ∈ w, a.isDigit)
    (r : List Char) :
    fcGo (some (c, true, [])) (w ++ r) = fcGo (some (c, false, w.reverse)) r := by
  obtain ⟨d, t, rfl⟩ := List.exists_cons_of_ne_nil hne
  rw [List.cons_append, fcGo_enter c (not_space_of_digit (hw d (by simp)))
      (operandChar_of_digit (hw d (by simp))),
    fcGo_ops (fun a ha => operandChar_of_digit (hw a (by simp [ha]))) c [d] r]
  simp

/-- The command scan of the body of a serialised M/L path, starting just
after a command letter. -/
theorem fcGo_run (rest : List (List Char × List Char)) :
    ∀ (p : List Char × List Char) (c : Char),
    digitTok p.1 = true → digitTok p.2 = true →
    (∀ q ∈ rest, digitTok q.1 = true ∧ digitTok q.2 = true) →
    fcGo (some (c, true, [])) ((' ' :: (p.1 ++ ' ' :: p.2)) ++ tailStr rest) =
      mlRawCmds c (p :: rest) := by
  induction rest with
  | nil =>
    intro p c h1 h2 _
    rw [List.cons_append, fcGo_ws,
      show (p.1 ++ ' ' :: p.2) ++ tailStr [] = p.1 ++ (' ' :: p.2 ++ tailStr []) from by
        simp [List.append_assoc],
      fcGo_word c (digitTok_ne_nil h1) (digitTok_digits h1),
      fcGo_ops (w := ' ' :: p.2)
        (by
          intro a ha
          rcases List.mem_cons.mp ha with rfl | ha
          · decide
          · exact operandChar_of_digit (digitTok_digits h2 a ha))]
    simp only [tailStr, List.map_nil, List.flatten_nil, fcGo_final, mlRawCmds]
    simp
  | cons q rest ih =>
    intro p c h1 h2 hq
    rw [List.cons_append, fcGo_ws,
      show (p.1 ++ ' ' :: p.2) ++ tailStr (q :: rest) =
          p.1 ++ ((' ' :: p.2 ++ [' ']) ++ ('L' :: ((' ' :: (q.1 ++ ' ' :: q.2)) ++ tailStr rest)))
        from by simp [tailStr, mkPt, List.append_assoc],
      fcGo_word c (digitTok_ne_nil h1) (digitTok_digits h1),
      fcGo_ops (w := ' ' :: p.2 ++ [' '])
        (by
          intro a ha
          rcases List.mem_append.mp ha with ha | ha
          · rcases List.mem_cons.mp ha with rfl | ha
            · decide
            · exact operandChar_of_digit (digitTok_digits h2 a ha)
          · simp only [List.mem_singleton] at ha
            subst ha
            decide),
      fcGo_emit_letter (by decide) (by decide),
      ih q 'L' (hq q (by simp)).1 (hq q (by simp)).2 (fun x hx => hq x (by simp [hx]))]
    rw [mlRawCmds]
    simp

/-- The command regex applied to a serialised M/L path. -/
theorem findCommands_mkMLPath (ps : List (List Char × List Char))
    (hne : ps ≠ []) (h : ∀ p ∈ ps, digitTok p.1 = true ∧ digitTok p.2 = true) :
    findCommands (mkMLPath ps) = mlRawCmds 'M' ps := by
  obtain ⟨p, rest, rfl⟩ := List.exists_cons_of_ne_nil hne
  have hm : mkMLPath (p :: rest) =
      'M' :: ((' ' :: (p.1 ++ ' ' :: p.2)) ++ tailStr rest) := by
    simp [mkMLPath, mkPt, tailStr]
  rw [findCommands, hm, fcGo_letter (by decide),
    fcGo_run rest p 'M' (h p (by simp)).1 (h p (by simp)).2 (fun q hq => h q (by simp [hq]))]

theorem map_commaToSpace_of_ne {l : List Char} (h : ∀ c ∈ l, c ≠ ',') :
    l.map commaToSpace = l := by
  induction l with
  | nil => rfl
  | cons a t ih =>
    simp [commaToSpace, h a (by simp), ih fun c hc => h c (by simp [hc])]

theorem pwGo_nonspace {w : List Char} (hw : ∀ a ∈ w, isPySpace a = false) :
    ∀ (acc r : List Char), pwGo acc (w ++ r) = pwGo (w.reverse ++ acc) r := by
  induction w with
  | nil => simp
  | cons a w ih =>
    intro acc r
    simp [pwGo, hw a (by simp), ih (fun x hx => hw x (by simp [hx])), List.append_assoc]

/-- The operand substring of one serialised M/L command parses to exactly
its two coordinate values. -/
theorem parseNums_pair {x y : List Char} (hx : digitTok x = true) (hy : digitTok y = true)
    (t : List Char) (ht : t = [] ∨ t = [' ']) :
    parseNums (x ++ ' ' :: (y ++ t)) = [(digitsVal x : ℚ), (digitsVal y : ℚ)] := by
  have hxs : ∀ a ∈ x, isPySpace a = false :=
    fun a ha => not_space_of_digit (digitTok_digits hx a ha)
  have hys : ∀ a ∈ y, isPySpace a = false :=
    fun a ha => not_space_of_digit (digitTok_digits hy a ha)
  have hmap : (x ++ ' ' :: (y ++ t)).map commaToSpace = x ++ ' ' :: (y ++ t) := by
    refine map_commaToSpace_of_ne ?_
    intro c hc
    rcases List.mem_append.mp hc with hc | hc
    · exact isDigit_ne_of_ne (by decide) (digitTok_digits hx c hc)
    · rcases List.mem_cons.mp hc with rfl | hc
      · decide
      · rcases List.mem_append.mp hc with hc | hc
        · exact isDigit_ne_of_ne (by decide) (digitTok_digits hy c hc)
        · rcases ht with rfl | rfl
          · simp at hc
          · simp only [List.mem_singleton] at hc
            subst hc
            decide
  rw [parseNums, hmap, pyWords, pwGo_nonspace hxs]
  have hxrev : x.reverse ≠ [] := by
    simpa using digitTok_ne_nil hx
  rw [show pwGo (x.reverse ++ []) (' ' :: (y ++ t)) = x.reverse.reverse :: pwGo [] (y ++ t) from by
    simp [pwGo, isPySpace, List.append_nil, hxrev]]
  have hyrev : y.reverse ≠ [] := by
    simpa using digitTok_ne_nil hy
  rcases ht with rfl | rfl
  · rw [List.append_nil, show (y : List Char) = y ++ [] from (List.append_nil y).symm,
      pwGo_nonspace hys]
    rw [show pwGo (y.reverse ++ []) [] = [y.reverse.reverse] from by
      simp [pwGo, List.append_nil, hyrev]]
    simp only [List.reverse_reverse, List.filterMap_cons,
      pyFloat_digits (digitTok_ne_nil hx) (digitTok_digits hx),
      pyFloat_digits (digitTok_ne_nil hy) (digitTok_digits hy)]
    simp
  · rw [pwGo_nonspace hys]
    rw [show pwGo (y.reverse ++ []) [' '] = [y.reverse.reverse] from by
      simp [pwGo, isPySpace, List.append_nil, hyrev]]
    simp only [List.reverse_reverse, List.filterMap_cons,
      pyFloat_digits (digitTok_ne_nil hx) (digitTok_digits hx),
      pyFloat_digits (digitTok_ne_nil hy) (digitTok_digits hy)]
    rfl

/-- Evaluation of the per-match parse body on one serialised M/L command. -/
theorem fjaCmd_ml {c : Char} (hc : c = 'M' ∨ c = 'L') {x y : List Char}
    (hx : digitTok x = true) (hy : digitTok y = true) (t : List Char)
    (ht : t = [] ∨ t = [' ']) :
    fjaCmd (c, x ++ ' ' :: (y ++ t)) = some (c, [(digitsVal x : ℚ), (digitsVal y : ℚ)]) := by
  have hz : c.toUpper = c ∧ (c.toUpper = 'Z') = False := by
    rcases hc with rfl | rfl <;> exact ⟨by decide, by simp⟩
  have hall : ((x ++ ' ' :: (y ++ t)).all isPySpace) = false := by
    obtain ⟨d, x', rfl⟩ := List.exists_cons_of_ne_nil (digitTok_ne_nil hx)
    simp [not_space_of_digit (digitTok_digits hx d (by simp))]
  rw [fjaCmd]
  simp only [hz.1, hz.2, if_false, hall, Bool.false_eq_true, parseNums_pair hx hy t ht]
  rcases hc with rfl | rfl <;> simp

theorem mlParsedWith_L (rest : List (List Char × List Char)) :
    rest.map (fun q => ('L', [(tokVal q).1, (tokVal q).2])) = mlParsedWith 'L' rest := by
  cases rest <;> rfl

/-- Parsing the raw scanned commands of a serialised M/L path. -/
theorem fja_raw (ps : List (List Char × List Char)) :
    ∀ c : Char, c = 'M' ∨ c = 'L' →
    (∀ p ∈ ps, digitTok p.1 = true ∧ digitTok p.2 = true) →
    (mlRawCmds c ps).filterMap fjaCmd = mlParsedWith c ps := by
  induction ps with
  | nil =>
    intro c _ _
    rfl
  | cons p rest ih =>
    intro c hc h
    have h1 := (h p (by simp)).1
    have h2 := (h p (by simp)).2
    cases rest with
    | nil =>
      rw [mlRawCmds]
      have := fjaCmd_ml hc h1 h2 [] (Or.inl rfl)
      rw [List.append_nil] at this
      simp only [List.filterMap_cons, this, List.filterMap_nil, mlParsedWith, List.map_nil]
      simp [tokVal]
    | cons q rest2 =>
      rw [mlRawCmds]
      have hfst := fjaCmd_ml hc h1 h2 [' '] (Or.inr rfl)
      rw [(by simp [List.append_assoc] :
        p.1 ++ ' ' :: p.2 ++ [' '] = p.1 ++ ' ' :: (p.2 ++ [' ']))]
      simp only [List.filterMap_cons, hfst,
        ih 'L' (Or.inr rfl) (fun q2 hq2 => h q2 (by simp [hq2]))]
      simp [mlParsedWith, mlParsedWith_L, tokVal]

theorem accumPoints_L_list (rest : List (List Char × List Char)) : ∀ cx cy : ℚ,
    accumPoints cx cy (rest.map fun q => ('L', [(tokVal q).1, (tokVal q).2])) =
      rest.map tokVal := by
  induction rest with
  | nil =>
    intro cx cy
    rfl
  | cons q rest ih =>
    intro cx cy
    simp [accumPoints, cmdPoints, cmdNext, ih]

/-- The accumulated points of the parsed M/L commands are exactly the
denoted coordinate pairs. -/
theorem accumPoints_mlParsed (c : Char) (hc : c = 'M' ∨ c = 'L')
    (ps : List (List Char × List Char)) : ∀ cx cy : ℚ,
    accumPoints cx cy (mlParsedWith c ps) = ps.map tokVal := by
  cases ps with
  | nil =>
    intro cx cy
    rfl
  | cons p rest =>
    intro cx cy
    rcases hc with rfl | rfl <;>
      simp [mlParsedWith, accumPoints, cmdPoints, cmdNext, accumPoints_L_list]

/-- C10, amended: the two duplicated bounds computations are not equivalent
in general (dual_bounds_cex shows a curved path on which they disagree), but
they do agree on every path built only of absolute M/L commands with one
plain decimal coordinate pair each — the family the dotted-path generator
emits for straight strokes. -/
theorem dual_bounds_agree_ml (ps : List (List Char × List Char)) (hne : ps ≠ [])
    (h : ∀ p ∈ ps, digitTok p.1 = true ∧ digitTok p.2 = true) :
    parse_svg_path_fdpa (mkMLPath ps) = exceptBounds (get_svg_bounds (mkMLPath ps)) := by
  have hfja : parse_svg_path_fja (mkMLPath ps) = mlParsedWith 'M' ps := by
    rw [parse_svg_path_fja, findCommands_mkMLPath ps hne h, fja_raw ps 'M' (Or.inl rfl) h]
  have htok : (naiveTokens (mkMLPath ps)).filterMap pyFloat =
      ((ps.map tokVal).map fun v => [v.1, v.2]).flatten := by
    rw [naiveTokens_mkMLPath ps h, filterMap_pyFloat_tokens ps h, List.map_map]
    rfl
  obtain ⟨p, rest, rfl⟩ := List.exists_cons_of_ne_nil hne
  rw [parse_svg_path_fdpa, htok, evens_pairs, odds_pairs,
    get_svg_bounds, hfja, accumPoints_mlParsed 'M' (Or.inl rfl)]
  simp only [List.map_cons, boundsOfPoints, exceptBounds]

/-- C10, counterexample: on the curved path M 0 0 Q 50 -100 100 0 the
regex-number-pairing bounds treat the control point (50, -100) as an
on-path vertex and report top -100 and height 100, while the command-aware,
curve-sampling bounds report top -50 and height 50 — the two duplicated
implementations disagree. -/
theorem dual_bounds_cex :
    parse_svg_path_fdpa ("M 0 0 Q 50 -100 100 0".data) = .ok ⟨0, -100, 100, 100⟩ ∧
    get_svg_bounds ("M 0 0 Q 50 -100 100 0".data) = some ⟨0, -50, 100, 50⟩ ∧
    parse_svg_path_fdpa ("M 0 0 Q 50 -100 100 0".data) ≠
      exceptBounds (get_svg_bounds ("M 0 0 Q 50 -100 100 0".data)) := by
  have hnt : naiveTokens ("M 0 0 Q 50 -100 100 0".data) =
      [['0'], ['0'], ['5', '0'], ['-', '1', '0', '0'], ['1', '0', '0'], ['0']] := by decide
  have hcoords : (naiveTokens ("M 0 0 Q 50 -100 100 0".data)).filterMap pyFloat =
      [0, 0, 50, -100, 100, 0] := by
    rw [hnt]
    simp [List.filterMap_cons,
      pyFloat_nat ['0'] 0 (by simp) (by decide) (by decide),
      pyFloat_nat ['5', '0'] 50 (by simp) (by decide) (by decide),
      pyFloat_negNat ['1', '0', '0'] 100 (by simp) (by decide) (by decide),
      pyFloat_nat ['1', '0', '0'] 100 (by simp) (by decide) (by decide)]
  have hfdpa : parse_svg_path_fdpa ("M 0 0 Q 50 -100 100 0".data) =
      .ok ⟨0, -100, 100, 100⟩ := by
    rw [parse_svg_path_fdpa, hcoords]
    norm_num [evens, odds, listMin, listMax, min_def, max_def]
  refine ⟨hfdpa, qpath_bounds, ?_⟩
  rw [hfdpa, qpath_bounds]
  simp only [exceptBounds, ne_eq, Except.ok.injEq, Bounds.mk.injEq, not_and]
  intro _ h50
  norm_num at h50

/-- Witness for the amended C10 on the concrete two-point path M 1 2 L 3 4. -/
theorem dual_bounds_agree_ml_witness :
    parse_svg_path_fdpa (mkMLPath [(['1'], ['2']), (['3'], ['4'])]) =
      exceptBounds (get_svg_bounds (mkMLPath [(['1'], ['2']), (['3'], ['4'])])) :=
  dual_bounds_agree_ml [(['1'], ['2']), (['3'], ['4'])] (by simp) (by decide)

end TracingShiva
